import Mathlib

/-!
# Verification of the svg-power-opt plugin-pipeline and orchestration layer

Shallow embedding of `src/lib/index.js`, `src/bin/cli.js` and
`src/lib/webpack-plugin.js`.  External collaborators (the SVGO `optimize`
engine, the file system, `zlib.gunzipSync`, UTF-8 decoding, the `sharp`
rasterizer) are modelled as explicit function parameters: they are consumed
as black boxes by the code under verification, so every theorem below is
quantified over them.  Fallible JavaScript calls (which `throw`) are
modelled with `Except String`, the error string standing for the thrown
error's `.message`.
-/

namespace SvgPowerOpt

/-- A transformation descriptor (SVGO plugin object): a `name`, an optional
parameter bag (opaque string key/value pairs, only ever inspected by the
external engine), and an optional explicit `active` flag.
Mirrors the plain JS objects `{ name, params?, active? }`. -/
structure Plugin where
  name : String
  params : List (String × String) := []
  active : Option Bool := none
deriving DecidableEq

/-- An entry of the built-in tier arrays in `src/lib/index.js`, which mix
bare strings and plugin objects (`typeof p === "string"` dispatch). -/
inductive RawPlugin where
  | str (s : String)
  | obj (p : Plugin)
deriving DecidableEq

/-- The array `safePlugins` from `src/lib/index.js` (lines 7-30): the safe tier,
a list of bare plugin-name strings. -/
def safePlugins : List RawPlugin :=
  [.str "cleanupAttrs",
   .str "removeDoctype",
   .str "removeXMLProcInst",
   .str "removeComments",
   .str "removeMetadata",
   .str "removeTitle",
   .str "removeDesc",
   .str "removeUselessDefs",
   .str "removeEditorsNSData",
   .str "removeEmptyAttrs",
   .str "removeHiddenElems",
   .str "removeEmptyText",
   .str "removeEmptyContainers",
   .str "cleanupEnableBackground",
   .str "convertStyleToAttrs",
   .str "convertColors",
   .str "convertPathData",
   .str "convertTransform",
   .str "removeUnknownsAndDefaults",
   .str "removeNonInheritableGroupAttrs",
   .str "removeUselessStrokeAndFill",
   .str "mergePaths",
   .str "removeDimensions"]

/-- The array `aggressivePlugins` from `src/lib/index.js` (lines 32-40): the
aggressive tier, mixing a bare string and a parameterized object. -/
def aggressivePlugins : List RawPlugin :=
  [.str "sortAttrs",
   .obj { name := "removeAttrs", params := [("attrs", "(class|data-name)")] }]

/-- The mapping `all.map((p) => (typeof p === "string" ? { name: p } : p))`:
bare identifiers become descriptors with no parameters. -/
def toDescriptor : RawPlugin → Plugin
  | .str s => { name := s }
  | .obj p => p

/-- The function `getPluginConfig(aggressive, customPlugins)` from `src/lib/index.js`
(lines 43-51): safe tier, then (if aggressive) the aggressive tier, mapped
to descriptors, then the caller-supplied plugins appended verbatim. -/
def getPluginConfig (aggressive : Bool) (customPlugins : List Plugin) : List Plugin :=
  let all := safePlugins ++ (if aggressive then aggressivePlugins else [])
  all.map toDescriptor ++ customPlugins

/-- The JS method `Array.prototype.findIndex(p => p.name === nm)`, with `none`
standing for the JS result `-1`. -/
def findIndexNamed (nm : String) : List Plugin → Option Nat
  | [] => none
  | p :: ps => if p.name == nm then some 0 else (findIndexNamed nm ps).map (· + 1)

/-- The JS method `arr.splice(i, 1)`: remove the element at index `i` (no-op past the
end). -/
def spliceOne : List Plugin → Nat → List Plugin
  | [], _ => []
  | _ :: ps, 0 => ps
  | p :: ps, n + 1 => p :: spliceOne ps n

/-- The option bag destructured at the top of `optimizeSVG`
(`src/lib/index.js` lines 54-61), with the source's default values. -/
structure OptimizeOptions where
  aggressive : Bool := false
  multipass : Bool := true
  plugins : List Plugin := []
  preserveViewBox : Bool := true
  removeDimensions : Bool := true

/-- The plugin list `optimizeSVG` actually hands to the external engine
(`src/lib/index.js` lines 63-76): `getPluginConfig(aggressive, plugins)`,
then — if the `removeDimensions` toggle is explicitly disabled — splice out
the first descriptor named `"removeDimensions"`, then — if
`preserveViewBox` (default true) — push `{ name: "removeViewBox",
active: false }` at the end. -/
def composePluginConfig (aggressive : Bool) (plugins : List Plugin)
    (preserveViewBox rmDims : Bool) : List Plugin :=
  let pluginConfig := getPluginConfig aggressive plugins
  let pluginConfig :=
    if !rmDims then
      match findIndexNamed "removeDimensions" pluginConfig with
      | some idx => spliceOne pluginConfig idx
      | none => pluginConfig
    else pluginConfig
  if preserveViewBox then
    pluginConfig ++ [{ name := "removeViewBox", active := some false }]
  else pluginConfig

/-- The configuration object `{ multipass, plugins }` passed to the
external SVGO `optimize` call. -/
structure SvgoConfig where
  multipass : Bool
  plugins : List Plugin

/-- The object returned by the external SVGO `optimize` call; only its
`.data` field (the optimized markup) is consumed by this code. -/
structure OptimizeResult where
  data : String
deriving DecidableEq

/-- The type of the external SVGO `optimize` function: markup and a config
in, either a result or a thrown error (its `.message`) out. -/
abbrev SvgoOptimize := String → SvgoConfig → Except String OptimizeResult

/-- The function `optimizeSVG` from `src/lib/index.js` (lines 53-87): compose the plugin
list, call the external engine, return its result unchanged on success, and
on a thrown error re-throw `"SVGO optimization failed: " + e.message`. -/
def optimizeSVG (ext : SvgoOptimize) (svgContent : String)
    (options : OptimizeOptions) : Except String OptimizeResult :=
  let pluginConfig := composePluginConfig options.aggressive options.plugins
    options.preserveViewBox options.removeDimensions
  match ext svgContent { multipass := options.multipass, plugins := pluginConfig } with
  | .ok result => .ok result
  | .error e => .error ("SVGO optimization failed: " ++ e)

/-- The JS method `String.prototype.endsWith`: character-wise suffix test. -/
def jsEndsWith (s suffixStr : String) : Bool :=
  suffixStr.data.isSuffixOf s.data

/-- The JS method `String.prototype.startsWith`: character-wise test at the start. -/
def jsStartsWith (s pre : String) : Bool :=
  pre.data.isPrefixOf s.data

/-- ECMAScript WhiteSpace and LineTerminator code points, the set removed
by `String.prototype.trim`. -/
def jsIsWhite (c : Char) : Bool :=
  c.toNat == 0x9 || c.toNat == 0xA || c.toNat == 0xB || c.toNat == 0xC ||
  c.toNat == 0xD || c.toNat == 0x20 || c.toNat == 0xA0 || c.toNat == 0x1680 ||
  (0x2000 ≤ c.toNat && c.toNat ≤ 0x200A) || c.toNat == 0x2028 ||
  c.toNat == 0x2029 || c.toNat == 0x202F || c.toNat == 0x205F ||
  c.toNat == 0x3000 || c.toNat == 0xFEFF

/-- The JS method `String.prototype.trim`: strip leading and trailing whitespace. -/
def jsTrim (s : String) : String :=
  String.mk (((s.data.dropWhile jsIsWhite).reverse.dropWhile jsIsWhite).reverse)

/-- The external world the file-based entry points interact with: reading a
file as raw bytes or as UTF-8 text, `zlib.gunzipSync` (which throws on
corrupt data), and `Buffer.prototype.toString("utf-8")` (total — node
substitutes replacement characters rather than failing). -/
structure FileEnv where
  readFileBytes : String → Except String (List Nat)
  readFileText : String → Except String String
  gunzipSync : List Nat → Except String (List Nat)
  utf8Decode : List Nat → String

/-- The shared path-to-text logic of `optimizeSVGFromFile` and the file
branch of `exportPNGThumbnail`: paths ending in `".svgz"` are read as bytes
and gunzip-decompressed to UTF-8 text, any other path is read as UTF-8 text
directly. -/
def readPathContent (env : FileEnv) (filePath : String) : Except String String :=
  if jsEndsWith filePath ".svgz" then
    match env.readFileBytes filePath with
    | .ok gzipped =>
      match env.gunzipSync gzipped with
      | .ok raw => .ok (env.utf8Decode raw)
      | .error e => .error e
    | .error e => .error e
  else env.readFileText filePath

/-- The function `optimizeSVGFromFile` from `src/lib/index.js` (lines 89-100): read the
file (transparently gunzipping `.svgz`), optimize, return `result.data`. -/
def optimizeSVGFromFile (env : FileEnv) (ext : SvgoOptimize) (filePath : String)
    (options : OptimizeOptions) : Except String String :=
  match readPathContent env filePath with
  | .ok content =>
    match optimizeSVG ext content options with
    | .ok result => .ok result.data
    | .error e => .error e
  | .error e => .error e

/-- The function `optimizeSVGFromBuffer` from `src/lib/index.js` (lines 102-107):
decode the buffer as UTF-8, optimize, return `result.data`. -/
def optimizeSVGFromBuffer (ext : SvgoOptimize) (dec : List Nat → String)
    (buffer : List Nat) (options : OptimizeOptions) : Except String String :=
  match optimizeSVG ext (dec buffer) options with
  | .ok result => .ok result.data
  | .error e => .error e

/-- The function `validateSVG` from `src/lib/index.js` (lines 156-163): run the external
`optimize` with `multipass: false` and an empty plugin list inside a
`try`/`catch`; any exception yields `false`.  Returning `Bool` (never
`Except`) models that no exception escapes. -/
def validateSVG (ext : SvgoOptimize) (svgContent : String) : Bool :=
  match ext svgContent { multipass := false, plugins := [] } with
  | .ok _ => true
  | .error _ => false

/-- The `input` argument of `exportPNGThumbnail`: either a JS string or any
non-string value (`typeof input !== "string"`). -/
inductive ThumbInput where
  | str (s : String)
  | nonString

/-- What `exportPNGThumbnail` hands to the external rasterizer: the SVG
string it resolved.  The rasterization itself (`sharp(...).resize(...)
.png(...).toFile(...)`) is external. -/
inductive ThumbAction where
  | rasterize (svgString : String)
deriving DecidableEq

/-- The function `exportPNGThumbnail` from `src/lib/index.js` (lines 127-153), up to the
hand-off to the external rasterizer: a string whose trimmed form starts
with `"<svg"` is used as markup verbatim; any other string is treated as a
file path (gunzipped when it ends in `".svgz"`); a non-string throws
`"Invalid input for PNG thumbnail"` before anything is rasterized. -/
def exportPNGThumbnail (env : FileEnv) (input : ThumbInput) :
    Except String ThumbAction :=
  match input with
  | .str s =>
    if jsStartsWith (jsTrim s) "<svg" then .ok (.rasterize s)
    else
      match readPathContent env s with
      | .ok content => .ok (.rasterize content)
      | .error e => .error e
  | .nonString => .error "Invalid input for PNG thumbnail"

/-- A webpack compilation asset as consumed here: its `source()` text. -/
structure WebpackAsset where
  source : String
deriving DecidableEq

/-- ASCII lower-casing of a string, character by character (the
case-folding the regex flag `i` performs on the ASCII pattern `.svg`). -/
def asciiLower (s : String) : String :=
  String.mk (s.data.map Char.toLower)

/-- The filter `/\.svg$/i.test(name)` of `src/lib/webpack-plugin.js`
(line 11): the name ends in `".svg"` case-insensitively. -/
def svgAssetTest (name : String) : Bool :=
  jsEndsWith (asciiLower name) ".svg"

/-- The emit-hook body of `SvgPowerOptWebpackPlugin.apply`
(`src/lib/webpack-plugin.js` lines 8-23) as a transformation of the asset
map (modelled as an association list with the object's unique keys):
every asset whose name matches `/\.svg$/i` is re-optimized through
`optimizeSVGFromBuffer(Buffer.from(source), options)` and replaced on
success (on a thrown error the assignment is never reached and the entry
keeps its old value while the hook's promise rejects); every other entry is
never touched.  `enc` models `Buffer.from` on a string, `dec` models
`Buffer.prototype.toString("utf-8")`. -/
def svgPowerOptWebpackApply (ext : SvgoOptimize) (enc : String → List Nat)
    (dec : List Nat → String) (options : OptimizeOptions)
    (assets : List (String × WebpackAsset)) : List (String × WebpackAsset) :=
  assets.map fun a =>
    if svgAssetTest a.1 then
      match optimizeSVGFromBuffer ext dec (enc a.2.source) options with
      | .ok optimized => (a.1, ⟨optimized⟩)
      | .error _ => a
    else a

/-! ## CLI model (`src/bin/cli.js`)

The per-file size report computes
`percentReduced = (((originalSize - optimizedSize) / originalSize) * 100).toFixed(2)`
— a *string* — and the aggressive-mode warning condition is
`options.aggressive && percentReduced > 10` (lines 108-147).  We model the
arithmetic over `ℚ` (the double-precision rounding error of the division is
orders of magnitude below the 0.005 granularity at which the comparison
below can change, so the rational model decides the same branch), model
`toFixed(2)` by its ECMAScript definition (round the magnitude to the
nearest hundredth, ties away from zero, format with exactly two fraction
digits), and model the implicit `ToNumber` coercion that JS applies to the
string operand of `>` by parsing the decimal literal back. -/

/-- Big-endian base-10 digits, structurally recursive on a fuel bound (any
fuel above the input is enough; `natDigits` below supplies it). -/
def natDigitsF : Nat → Nat → List Nat
  | 0, _ => []
  | fuel + 1, n => if n < 10 then [n] else natDigitsF fuel (n / 10) ++ [n % 10]

/-- Big-endian base-10 digits of a natural number. -/
def natDigits (n : Nat) : List Nat := natDigitsF (n + 1) n

/-- The numeric value of a big-endian digit list. -/
def valOfDigits (l : List Nat) : Nat :=
  l.foldl (fun a d => 10 * a + d) 0

/-- The character for one decimal digit. -/
def digitChar (d : Nat) : Char := Char.ofNat (48 + d)

/-- Is `c` an ASCII decimal digit? -/
def isDigitChar (c : Char) : Bool := 48 ≤ c.toNat && c.toNat ≤ 57

/-- The digit value of an ASCII decimal digit character. -/
def charDigitVal (c : Char) : Nat := c.toNat - 48

/-- Decimal string of a natural number (the digits JS emits). -/
def natToStr (n : Nat) : String := String.mk ((natDigits n).map digitChar)

/-- Exactly-two-digit rendering of `m < 100` (`toFixed(2)` zero-pads the
fraction). -/
def twoDigitChars (m : Nat) : List Char :=
  if m < 10 then ['0', digitChar m] else (natDigits m).map digitChar

/-- The integer `n` of ECMAScript `NumberToFixed` with two fraction digits,
for the magnitude: the integer closest to `|q| * 100`, ties resolved to the
larger. -/
def toFixed2Mag (q : ℚ) : Nat := (Int.floor (|q| * 100 + 1 / 2)).toNat

/-- The JS method `q.toFixed(2)`: sign of a negative input, then magnitude digits with
exactly two fraction digits. -/
def toFixed2Str (q : ℚ) : String :=
  (if q < 0 then "-" else "") ++ natToStr (toFixed2Mag q / 100) ++ "." ++
    String.mk (twoDigitChars (toFixed2Mag q % 100))

/-- The rational a JS `toFixed(2)` string denotes. -/
def jsFixedVal (q : ℚ) : ℚ :=
  (if q < 0 then -1 else 1) * (toFixed2Mag q : ℚ) / 100

/-- The numeric value of a digit-character list. -/
def valOfCharDigits (cs : List Char) : Nat :=
  valOfDigits (cs.map charDigitVal)

/-- ECMAScript `ToNumber` restricted to unsigned decimal literals
(`digits` or `digits.digits`), the shapes `toFixed` emits. -/
def parseDecChars (cs : List Char) : Option ℚ :=
  let ip := cs.takeWhile isDigitChar
  let rest := cs.dropWhile isDigitChar
  if ip.isEmpty then none
  else
    match rest with
    | [] => some (valOfCharDigits ip : ℚ)
    | '.' :: fp =>
      if fp.isEmpty || !fp.all isDigitChar then none
      else some ((valOfCharDigits ip : ℚ) + (valOfCharDigits fp : ℚ) / 10 ^ fp.length)
    | _ => none

/-- ECMAScript `ToNumber` on an optionally-signed decimal literal (the only string
shapes `toFixed` produces); `none` models NaN. -/
def jsToNumber (s : String) : Option ℚ :=
  match s.data with
  | [] => none
  | c :: cs =>
    if c = '-' then (parseDecChars cs).map (fun q => -q)
    else parseDecChars (c :: cs)

/-- The JS comparison `s > n` for a string `s` and a number `n`: the string
operand is coerced with `ToNumber`; any comparison against NaN is false. -/
def jsGtNum (s : String) (n : ℚ) : Bool :=
  match jsToNumber s with
  | some q => decide (n < q)
  | none => false

/-- The string `percentReduced` from `src/bin/cli.js` (lines 108-111): the formatted
percentage-reduction string. -/
def percentReducedStr (originalSize optimizedSize : Nat) : String :=
  toFixed2Str ((((originalSize : ℚ) - (optimizedSize : ℚ)) / (originalSize : ℚ)) * 100)

/-- The guard of the aggressive-mode verification warning
(`src/bin/cli.js` line 142): `options.aggressive && percentReduced > 10`. -/
def aggressiveWarningEmitted (aggressive : Bool) (originalSize optimizedSize : Nat) : Bool :=
  aggressive && jsGtNum (percentReducedStr originalSize optimizedSize) 10

/-! ## Worker pool (`src/bin/cli.js`, `runConcurrent` lines 161-171)

`runConcurrent` spawns `concurrency` async workers; each loops
`while (index < files.length) { const file = files[index++]; await processFile(file); }`.
The claim of the next index (`files[index++]`) is synchronous JS code with
no intervening `await`, so on the single-threaded event loop it is one
atomic step; only `await processFile(file)` yields.  We therefore model an
execution as an arbitrary interleaving of atomic claim steps, each tagged
with the worker that performed it. -/

/-- The record `processFile` resolves with (`src/bin/cli.js` lines 148-154):
the file and whether its processing succeeded. -/
structure FileResult where
  file : String
  success : Bool
deriving DecidableEq

/-- The function `processFile` from `src/bin/cli.js` (lines 87-155) at the granularity
C9 needs: its whole body (optimize → validate → write → optional PNG
export), abstracted as `run`, sits in a `try` block; a thrown error is
caught at this per-file boundary and converted into a `success := false`
record, so nothing propagates to the pool. -/
def processFile (run : String → Except String String) (file : String) : FileResult :=
  match run file with
  | .ok _ => { file := file, success := true }
  | .error _ => { file := file, success := false }

/-- Pool state: the shared `index`, the sequence of indices claimed so far
(in claim order), and the accumulated per-file results. -/
structure PoolState where
  idx : Nat
  claimed : List Nat
  results : List FileResult
deriving DecidableEq

/-- One atomic scheduler step: worker `w` (one of the `N` workers) passes
the `index < files.length` test and executes `files[index++]`, then
processes that file to its per-file result. -/
inductive PoolStep (files : List String) (pf : String → FileResult) (N : Nat) :
    PoolState → PoolState → Prop where
  | claim (w i : Nat) (c : List Nat) (r : List FileResult)
      (hw : w < N) (hi : i < files.length) :
      PoolStep files pf N ⟨i, c, r⟩ ⟨i + 1, c ++ [i], r ++ [pf (files.getD i "")]⟩

/-- States reachable from the initial pool state by any interleaving. -/
inductive PoolReach (files : List String) (pf : String → FileResult) (N : Nat) :
    PoolState → Prop where
  | init : PoolReach files pf N ⟨0, [], []⟩
  | step {s s' : PoolState} : PoolReach files pf N s → PoolStep files pf N s s' →
      PoolReach files pf N s'

/-! ## Helper lemmas about the composer -/

/-- The built-in part of the plugin list: both tiers, as descriptors. -/
def builtinDescriptors (aggressive : Bool) : List Plugin :=
  (safePlugins ++ (if aggressive then aggressivePlugins else [])).map toDescriptor

/-- Remove the first descriptor with the given name (the
`findIndex`/`splice` idiom), leaving the list unchanged when none match. -/
def removeFirstNamed (nm : String) (l : List Plugin) : List Plugin :=
  match findIndexNamed nm l with
  | some i => spliceOne l i
  | none => l

/-- The toggle-derived descriptor pushed when `preserveViewBox` holds. -/
def viewBoxOff : Plugin := { name := "removeViewBox", active := some false }

lemma getPluginConfig_eq (a : Bool) (ps : List Plugin) :
    getPluginConfig a ps = builtinDescriptors a ++ ps := rfl

lemma findIndexNamed_append_of_some (nm : String) (ys : List Plugin) :
    ∀ {xs : List Plugin} {i : Nat}, findIndexNamed nm xs = some i →
      findIndexNamed nm (xs ++ ys) = some i := by
  intro xs
  induction xs with
  | nil => intro i h; simp [findIndexNamed] at h
  | cons p ps ih =>
    intro i h
    simp only [findIndexNamed, List.cons_append, List.append_eq] at h ⊢
    by_cases hp : (p.name == nm) = true
    · rw [if_pos hp] at h ⊢; exact h
    · rw [if_neg hp] at h ⊢
      rcases hfd : findIndexNamed nm ps with _ | j
      · rw [hfd] at h; simp at h
      · rw [hfd] at h
        rw [ih hfd]
        simpa using h

lemma spliceOne_append (xs ys : List Plugin) :
    ∀ i, i < xs.length → spliceOne (xs ++ ys) i = spliceOne xs i ++ ys := by
  induction xs with
  | nil => intro i h; simp at h
  | cons p ps ih =>
    intro i h
    cases i with
    | zero => simp [spliceOne]
    | succ n =>
      simp only [List.cons_append, spliceOne, List.append_eq]
      rw [ih n (by simpa using h)]

lemma mem_spliceOne {p : Plugin} :
    ∀ (l : List Plugin) (i : Nat), p ∈ spliceOne l i → p ∈ l := by
  intro l
  induction l with
  | nil => intro i h; simp [spliceOne] at h
  | cons q qs ih =>
    intro i h
    cases i with
    | zero =>
      exact List.mem_cons_of_mem _ (by simpa [spliceOne] using h)
    | succ n =>
      simp only [spliceOne, List.mem_cons] at h
      rcases h with h | h
      · exact h ▸ List.mem_cons_self _ _
      · exact List.mem_cons_of_mem _ (ih n h)

lemma findIndexNamed_builtin (a : Bool) :
    findIndexNamed "removeDimensions" (builtinDescriptors a) = some 22 := by
  cases a <;> rfl

lemma builtin_length_gt (a : Bool) : 22 < (builtinDescriptors a).length := by
  cases a <;> decide

/-- Structure of the composed list: the built-in tiers (minus the first
`removeDimensions` descriptor when that toggle is disabled), then the
caller-supplied descriptors in order, then — last — the toggle-derived
`removeViewBox`-disabling descriptor when `preserveViewBox` is enabled. -/
lemma composePluginConfig_split (a : Bool) (ps : List Plugin) (pv rd : Bool) :
    composePluginConfig a ps pv rd =
      (if rd then builtinDescriptors a
       else removeFirstNamed "removeDimensions" (builtinDescriptors a)) ++ ps ++
      (if pv then [viewBoxOff] else []) := by
  unfold composePluginConfig
  rw [getPluginConfig_eq]
  cases rd with
  | true =>
    cases pv <;> simp [viewBoxOff]
  | false =>
    have hidx : findIndexNamed "removeDimensions" (builtinDescriptors a ++ ps) = some 22 :=
      findIndexNamed_append_of_some _ _ (findIndexNamed_builtin a)
    have hsp : spliceOne (builtinDescriptors a ++ ps) 22 =
        spliceOne (builtinDescriptors a) 22 ++ ps :=
      spliceOne_append _ _ 22 (builtin_length_gt a)
    simp only [Bool.not_false, if_pos, hidx, hsp, removeFirstNamed, findIndexNamed_builtin]
    cases pv <;> simp [viewBoxOff, List.append_assoc]

/-! ## Claim theorems -/

/-- C1 (counterexample): with the default options, a caller-supplied
descriptor for `removeViewBox` is *not* the last occurrence of that name in
the list `optimizeSVG` composes — the toggle-derived
`{ name: "removeViewBox", active: false }` descriptor is pushed after the
caller-supplied plugins, so it is the last occurrence instead. -/
theorem caller_removeViewBox_not_last :
    { name := "removeViewBox", active := some true } ∈
      composePluginConfig false [{ name := "removeViewBox", active := some true }] true true ∧
    ((composePluginConfig false
          [{ name := "removeViewBox", active := some true }] true true).filter
        (fun p => p.name == "removeViewBox")).getLast? =
      some { name := "removeViewBox", params := [], active := some false } := by
  exact ⟨by decide, by decide⟩

/-- C1 (amended): in the list `optimizeSVG` hands to the engine, every
caller-supplied descriptor appears, in the order given, after every
descriptor of the built-in tiers; however, the toggle-derived
`removeViewBox`-disabling descriptor (present when `preserveViewBox` is
enabled) is appended *after* the caller-supplied descriptors, so the
caller's entry for a given name is the last occurrence of that name only
for names other than `removeViewBox` (or when `preserveViewBox` is
disabled). -/
theorem optimizeSVG_extraDescriptors_order (a : Bool) (ps : List Plugin) (pv rd : Bool) :
    composePluginConfig a ps pv rd =
      (if rd then builtinDescriptors a
       else removeFirstNamed "removeDimensions" (builtinDescriptors a)) ++ ps ++
      (if pv then [viewBoxOff] else []) :=
  composePluginConfig_split a ps pv rd

/-- C5: with `options.removeDimensions === false`, the plugin list
`optimizeSVG` composes equals the list composed with the toggle at its
default (`true`) with exactly its first descriptor named
`"removeDimensions"` removed (first match only); with the default, no
descriptor is removed. -/
theorem removeDimensions_toggle_removes_first (a : Bool) (ps : List Plugin) (pv : Bool) :
    composePluginConfig a ps pv false =
      removeFirstNamed "removeDimensions" (composePluginConfig a ps pv true) := by
  rw [composePluginConfig_split, composePluginConfig_split]
  have hidx : findIndexNamed "removeDimensions"
      (builtinDescriptors a ++ (ps ++ (if pv then [viewBoxOff] else []))) = some 22 :=
    findIndexNamed_append_of_some _ _ (findIndexNamed_builtin a)
  have hsp : spliceOne (builtinDescriptors a ++ (ps ++ (if pv then [viewBoxOff] else []))) 22 =
      spliceOne (builtinDescriptors a) 22 ++ (ps ++ (if pv then [viewBoxOff] else [])) :=
    spliceOne_append _ _ 22 (builtin_length_gt a)
  simp only [if_pos, List.append_assoc, removeFirstNamed, hidx, hsp, findIndexNamed_builtin]
  simp

/-- C6: the plugin list composed with `preserveViewBox` at its default
(`true`) is exactly the list composed with `preserveViewBox === false` with
the descriptor `{ name: "removeViewBox", active: false }` appended at the
end; and with `preserveViewBox === false` no composer-introduced descriptor
named `"removeViewBox"` occurs — any such descriptor can only be one the
caller supplied. -/
theorem preserveViewBox_appends_disable (a : Bool) (ps : List Plugin) (rd : Bool) :
    composePluginConfig a ps true rd =
      composePluginConfig a ps false rd ++
        [{ name := "removeViewBox", params := [], active := some false }] ∧
    ∀ p ∈ composePluginConfig a ps false rd, p.name = "removeViewBox" → p ∈ ps := by
  constructor
  · rw [composePluginConfig_split, composePluginConfig_split]
    simp [viewBoxOff]
  · intro p hp hname
    rw [composePluginConfig_split] at hp
    simp only [Bool.false_eq_true, if_false, List.append_nil] at hp
    rcases List.mem_append.mp hp with h | h
    · exfalso
      have hb : p ∈ builtinDescriptors a := by
        cases rd with
        | false =>
          simp only [Bool.false_eq_true, if_false] at h
          unfold removeFirstNamed at h
          rw [findIndexNamed_builtin] at h
          exact mem_spliceOne _ _ h
        | true => simpa using h
      have hnone : ∀ q ∈ builtinDescriptors a, q.name ≠ "removeViewBox" := by
        cases a <;> decide
      exact hnone p hb hname
    · exact h

/-- C6 witness: a concrete instantiation — with one caller-supplied
`removeViewBox` descriptor, the `preserveViewBox`-composed list is the
`false`-composed list plus the appended disabling descriptor, and the one
`removeViewBox`-named descriptor of the `false`-composed list is the
caller's. -/
theorem preserveViewBox_appends_disable_witness :
    (composePluginConfig false [{ name := "removeViewBox", active := some true }] true true =
      composePluginConfig false [{ name := "removeViewBox", active := some true }] false true ++
        [{ name := "removeViewBox", params := [], active := some false }]) ∧
    ({ name := "removeViewBox", active := some true } : Plugin) ∈
      ([{ name := "removeViewBox", active := some true }] : List Plugin) := by
  refine ⟨(preserveViewBox_appends_disable false
    [{ name := "removeViewBox", active := some true }] true).1, ?_⟩
  exact (preserveViewBox_appends_disable false
    [{ name := "removeViewBox", active := some true }] true).2
    { name := "removeViewBox", active := some true } (by decide) rfl

/-- C3: `validateSVG` returns `true` iff the external zero-plugin,
single-pass `optimize` call succeeds, returns `false` whenever that call
throws, and — being a total `Bool`-valued function — never propagates an
exception itself. -/
theorem validateSVG_iff (ext : SvgoOptimize) (s : String) :
    (validateSVG ext s = true ↔
      ∃ r, ext s { multipass := false, plugins := [] } = .ok r) ∧
    (∀ e, ext s { multipass := false, plugins := [] } = .error e →
      validateSVG ext s = false) := by
  constructor
  · constructor
    · intro h
      unfold validateSVG at h
      rcases hx : ext s { multipass := false, plugins := [] } with e | r
      · rw [hx] at h; simp at h
      · exact ⟨r, rfl⟩
    · rintro ⟨r, hr⟩
      unfold validateSVG
      rw [hr]
  · intro e he
    unfold validateSVG
    rw [he]

/-- C3 witness: concrete external engines — one that succeeds and one that
throws. -/
theorem validateSVG_iff_witness :
    validateSVG (fun _ _ => .ok { data := "y" }) "x" = true ∧
    validateSVG (fun _ _ => .error "parse error") "x" = false := by
  constructor
  · exact (validateSVG_iff (fun _ _ => .ok { data := "y" }) "x").1.mpr ⟨{ data := "y" }, rfl⟩
  · exact (validateSVG_iff (fun _ _ => .error "parse error") "x").2 "parse error" rfl

/-- C4: whenever the underlying `optimize` call throws, `optimizeSVG`
throws `"SVGO optimization failed: "` followed by the underlying message,
and whenever it succeeds `optimizeSVG` returns its result unchanged; the
`Except` result is one or the other, so no partial result is returned on
failure. -/
theorem optimizeSVG_error_wrapping (ext : SvgoOptimize) (content : String)
    (options : OptimizeOptions) :
    (∀ e, ext content { multipass := options.multipass,
                        plugins := composePluginConfig options.aggressive options.plugins
                          options.preserveViewBox options.removeDimensions } = .error e →
      optimizeSVG ext content options = .error ("SVGO optimization failed: " ++ e)) ∧
    (∀ r, ext content { multipass := options.multipass,
                        plugins := composePluginConfig options.aggressive options.plugins
                          options.preserveViewBox options.removeDimensions } = .ok r →
      optimizeSVG ext content options = .ok r) := by
  constructor
  · intro e he
    simp [optimizeSVG, he]
  · intro r hr
    simp [optimizeSVG, hr]

/-- C4 witness: a throwing engine yields the wrapped message; a succeeding
engine's result passes through unchanged. -/
theorem optimizeSVG_error_wrapping_witness :
    optimizeSVG (fun _ _ => .error "bad input") "x" {} =
      .error ("SVGO optimization failed: " ++ "bad input") ∧
    optimizeSVG (fun _ _ => .ok { data := "y" }) "x" {} = .ok { data := "y" } := by
  constructor
  · exact (optimizeSVG_error_wrapping (fun _ _ => .error "bad input") "x" {}).1 "bad input" rfl
  · exact (optimizeSVG_error_wrapping (fun _ _ => .ok { data := "y" }) "x" {}).2
      { data := "y" } rfl

lemma jsEndsWith_svg_not_svgz (s : String) (h : jsEndsWith s ".svg" = true) :
    jsEndsWith s ".svgz" = false := by
  unfold jsEndsWith List.isSuffixOf at h ⊢
  rw [show (".svg" : String).data.reverse = ['g', 'v', 's', '.'] from rfl] at h
  rw [show (".svgz" : String).data.reverse = ['z', 'g', 'v', 's', '.'] from rfl]
  rcases hrev : s.data.reverse with _ | ⟨c, cs⟩ <;> rw [hrev] at h
  · simp [List.isPrefixOf] at h
  · simp only [List.isPrefixOf, Bool.and_eq_true, beq_iff_eq] at h
    obtain ⟨hc, _⟩ := h
    subst hc
    simp [List.isPrefixOf, show (('z' == 'g') : Bool) = false from rfl]

/-- C2: when one path ends in `".svgz"` and its file's gunzip-decompressed
bytes decode to exactly the text read from another path ending in `".svg"`,
`optimizeSVGFromFile` returns the identical result for both under the same
options. -/
theorem optimizeSVGFromFile_svgz_equiv (env : FileEnv) (ext : SvgoOptimize)
    (options : OptimizeOptions) (pz pv : String) (bs raw : List Nat) (t : String)
    (hz : jsEndsWith pz ".svgz" = true)
    (hv : jsEndsWith pv ".svg" = true)
    (hread : env.readFileBytes pz = .ok bs)
    (hgz : env.gunzipSync bs = .ok raw)
    (htext : env.readFileText pv = .ok t)
    (hdec : env.utf8Decode raw = t) :
    optimizeSVGFromFile env ext pz options = optimizeSVGFromFile env ext pv options := by
  unfold optimizeSVGFromFile readPathContent
  rw [hz, jsEndsWith_svg_not_svgz pv hv]
  simp only [if_true, Bool.false_eq_true, if_false, hread, hgz, htext, hdec]

/-- C2 witness: a concrete environment in which `"icon.svgz"` decompresses
to the text of `"icon.svg"`, with a concrete engine. -/
theorem optimizeSVGFromFile_svgz_equiv_witness :
    optimizeSVGFromFile
        { readFileBytes := fun _ => .ok [31, 139],
          readFileText := fun _ => .ok "<svg/>",
          gunzipSync := fun _ => .ok [60, 115],
          utf8Decode := fun _ => "<svg/>" }
        (fun c _ => .ok { data := c }) "icon.svgz" {} =
      optimizeSVGFromFile
        { readFileBytes := fun _ => .ok [31, 139],
          readFileText := fun _ => .ok "<svg/>",
          gunzipSync := fun _ => .ok [60, 115],
          utf8Decode := fun _ => "<svg/>" }
        (fun c _ => .ok { data := c }) "icon.svg" {} := by
  exact optimizeSVGFromFile_svgz_equiv _ _ {} "icon.svgz" "icon.svg" [31, 139] [60, 115]
    "<svg/>" (by decide) (by decide) rfl rfl rfl rfl

/-- C7: `exportPNGThumbnail`'s input dispatch — a string whose trimmed form
starts with `"<svg"` is rasterized directly as markup; any other string is
treated as a file path, gunzip-decompressed first exactly when it ends in
`".svgz"`; a non-string input fails with the invalid-input error and no
rasterization action is produced. -/
theorem exportPNGThumbnail_dispatch (env : FileEnv) :
    (∀ s, jsStartsWith (jsTrim s) "<svg" = true →
      exportPNGThumbnail env (.str s) = .ok (.rasterize s)) ∧
    (∀ s, jsStartsWith (jsTrim s) "<svg" = false → jsEndsWith s ".svgz" = true →
      exportPNGThumbnail env (.str s) =
        (match env.readFileBytes s with
         | .ok gz =>
           match env.gunzipSync gz with
           | .ok raw => .ok (.rasterize (env.utf8Decode raw))
           | .error e => .error e
         | .error e => .error e)) ∧
    (∀ s, jsStartsWith (jsTrim s) "<svg" = false → jsEndsWith s ".svgz" = false →
      exportPNGThumbnail env (.str s) =
        (match env.readFileText s with
         | .ok content => .ok (.rasterize content)
         | .error e => .error e)) ∧
    exportPNGThumbnail env .nonString = .error "Invalid input for PNG thumbnail" := by
  refine ⟨?_, ?_, ?_, rfl⟩
  · intro s hs
    simp [exportPNGThumbnail, hs]
  · intro s hs hz
    simp only [exportPNGThumbnail, hs, Bool.false_eq_true, if_false, readPathContent, hz,
      if_true]
    rcases hb : env.readFileBytes s with e | gz
    · rfl
    · rcases hg : env.gunzipSync gz with e | raw <;> simp [hg]
  · intro s hs hz
    simp only [exportPNGThumbnail, hs, Bool.false_eq_true, if_false, readPathContent, hz]

/-- C7 witness: the three string cases and the non-string case at concrete
inputs in a concrete environment. -/
theorem exportPNGThumbnail_dispatch_witness :
    (exportPNGThumbnail
        { readFileBytes := fun _ => .ok [1],
          readFileText := fun _ => .ok "filetext",
          gunzipSync := fun _ => .ok [2],
          utf8Decode := fun _ => "unzipped" }
        (.str "  <svg/>") = .ok (.rasterize "  <svg/>")) ∧
    (exportPNGThumbnail
        { readFileBytes := fun _ => .ok [1],
          readFileText := fun _ => .ok "filetext",
          gunzipSync := fun _ => .ok [2],
          utf8Decode := fun _ => "unzipped" }
        (.str "icon.svgz") = .ok (.rasterize "unzipped")) ∧
    (exportPNGThumbnail
        { readFileBytes := fun _ => .ok [1],
          readFileText := fun _ => .ok "filetext",
          gunzipSync := fun _ => .ok [2],
          utf8Decode := fun _ => "unzipped" }
        (.str "icon.svg") = .ok (.rasterize "filetext")) ∧
    exportPNGThumbnail
        { readFileBytes := fun _ => .ok [1],
          readFileText := fun _ => .ok "filetext",
          gunzipSync := fun _ => .ok [2],
          utf8Decode := fun _ => "unzipped" }
        .nonString = .error "Invalid input for PNG thumbnail" := by
  refine ⟨?_, ?_, ?_, ?_⟩
  · exact (exportPNGThumbnail_dispatch _).1 "  <svg/>" (by decide)
  · exact (exportPNGThumbnail_dispatch _).2.1 "icon.svgz" (by decide) (by decide)
  · exact (exportPNGThumbnail_dispatch _).2.2.1 "icon.svg" (by decide) (by decide)
  · exact (exportPNGThumbnail_dispatch _).2.2.2

/-- C10: the webpack plugin's emit hook replaces only assets whose names
end in `".svg"` case-insensitively — every entry whose name does not match
is exactly the original entry — and a matching entry is replaced with the
optimized source when optimization succeeds. -/
theorem webpack_replaces_only_svg (ext : SvgoOptimize) (enc : String → List Nat)
    (dec : List Nat → String) (options : OptimizeOptions)
    (assets : List (String × WebpackAsset)) (i : Nat) (name : String) (a : WebpackAsset)
    (hget : assets[i]? = some (name, a)) :
    (svgAssetTest name = false →
      (svgPowerOptWebpackApply ext enc dec options assets)[i]? = some (name, a)) ∧
    (∀ o, svgAssetTest name = true →
      optimizeSVGFromBuffer ext dec (enc a.source) options = .ok o →
      (svgPowerOptWebpackApply ext enc dec options assets)[i]? = some (name, ⟨o⟩)) := by
  constructor
  · intro hfalse
    simp [svgPowerOptWebpackApply, List.getElem?_map, hget, hfalse]
  · intro o htrue hopt
    simp [svgPowerOptWebpackApply, List.getElem?_map, hget, htrue, hopt]

/-- C10 witness: a two-asset compilation — the `.js` asset is untouched and
the `.SVG` asset is replaced. -/
theorem webpack_replaces_only_svg_witness :
    ((svgPowerOptWebpackApply (fun _ _ => .ok { data := "opt" }) (fun _ => []) (fun _ => "")
        {} [("main.js", ⟨"code"⟩), ("logo.SVG", ⟨"<svg/>"⟩)])[0]? =
      some ("main.js", ⟨"code"⟩)) ∧
    ((svgPowerOptWebpackApply (fun _ _ => .ok { data := "opt" }) (fun _ => []) (fun _ => "")
        {} [("main.js", ⟨"code"⟩), ("logo.SVG", ⟨"<svg/>"⟩)])[1]? =
      some ("logo.SVG", ⟨"opt"⟩)) := by
  constructor
  · exact (webpack_replaces_only_svg _ _ _ _ _ 0 "main.js" ⟨"code"⟩ rfl).1 (by decide)
  · exact (webpack_replaces_only_svg _ _ _ _ _ 1 "logo.SVG" ⟨"<svg/>"⟩ rfl).2 "opt"
      (by decide) rfl

lemma range_map_getD {α β : Type} (f : α → β) (d : α) :
    ∀ l : List α, (List.range l.length).map (fun i => f (l.getD i d)) = l.map f := by
  intro l
  induction l with
  | nil => rfl
  | cons x xs ih =>
    simp only [List.length_cons, List.range_succ_eq_map, List.map_cons, List.map_map]
    refine congrArg₂ _ rfl ?_
    calc (List.range xs.length).map ((fun i => f ((x :: xs).getD i d)) ∘ Nat.succ)
        = (List.range xs.length).map (fun i => f (xs.getD i d)) := by
          refine List.map_congr_left ?_
          intro i _
          rfl
      _ = xs.map f := ih

/-- The invariant every reachable pool state satisfies: the shared index
never passes the end, the claimed indices are exactly `0, 1, …, idx - 1` in
order, and the accumulated results are the per-file results of exactly
those files. -/
lemma poolReach_invariant (files : List String) (pf : String → FileResult) (N : Nat) :
    ∀ s : PoolState, PoolReach files pf N s →
      s.idx ≤ files.length ∧ s.claimed = List.range s.idx ∧
        s.results = (List.range s.idx).map (fun i => pf (files.getD i "")) := by
  intro s h
  induction h with
  | init => exact ⟨Nat.zero_le _, rfl, rfl⟩
  | step _ hstep ih =>
    rcases hstep with ⟨w, i, c, r, hw, hi⟩
    obtain ⟨hle, hc, hr⟩ := ih
    refine ⟨hi, ?_, ?_⟩
    · simpa [List.range_succ] using congrArg (· ++ [i]) hc
    · simpa [List.range_succ] using congrArg (· ++ [pf (files.getD i "")]) hr

/-- C9: for every worker-pool size `N ≥ 1` and every maximal interleaved
execution of `runConcurrent`'s workers, each file index is claimed exactly
once (none skipped, none duplicated), the accumulated results are the
per-file outcomes of every file in order — for *every* per-file outcome
function, so one file's failure never prevents another file's attempt —
and `processFile` converts a thrown per-file error into a `success :=
false` record rather than propagating it. -/
theorem runConcurrent_each_file_once (files : List String)
    (run : String → Except String String) (N : Nat) (hN : 1 ≤ N) (s : PoolState)
    (hreach : PoolReach files (processFile run) N s)
    (hmax : ∀ s', ¬ PoolStep files (processFile run) N s s') :
    s.claimed = List.range files.length ∧
    (∀ i, i < files.length → s.claimed.count i = 1) ∧
    s.results = files.map (processFile run) ∧
    (∀ f e, run f = .error e → processFile run f = { file := f, success := false }) := by
  obtain ⟨hle, hc, hr⟩ := poolReach_invariant files (processFile run) N s hreach
  have hidx : s.idx = files.length := by
    by_contra hne
    have hlt : s.idx < files.length := Nat.lt_of_le_of_ne hle hne
    exact hmax _ (by
      have hstep := @PoolStep.claim files (processFile run) N
        0 s.idx s.claimed s.results (Nat.lt_of_lt_of_le Nat.zero_lt_one hN) hlt
      simpa using hstep)
  have hc' : s.claimed = List.range files.length := by rw [hc, hidx]
  have hr' : s.results =
      (List.range files.length).map (fun i => processFile run (files.getD i "")) := by
    rw [hr, hidx]
  refine ⟨hc', ?_, ?_, ?_⟩
  · intro i hi
    rw [hc']
    exact List.count_eq_one_of_mem (List.nodup_range _) (List.mem_range.mpr hi)
  · rw [hr', range_map_getD]
  · intro f e hf
    unfold processFile
    rw [hf]

/-- C9 witness: two files, one worker, a `run` that fails on the first
file: the maximal two-step execution claims both indices once each and
records a caught failure for the first file and a success for the
second. -/
theorem runConcurrent_each_file_once_witness :
    (⟨2, [0, 1], [{ file := "a", success := false }, { file := "b", success := true }]⟩ :
        PoolState).claimed = List.range (["a", "b"] : List String).length ∧
    (⟨2, [0, 1], [{ file := "a", success := false }, { file := "b", success := true }]⟩ :
        PoolState).results =
      (["a", "b"] : List String).map
        (processFile fun f => if f = "a" then .error "boom" else .ok "done") := by
  have hreach : PoolReach ["a", "b"]
      (processFile fun f => if f = "a" then .error "boom" else .ok "done") 1
      ⟨2, [0, 1], [{ file := "a", success := false }, { file := "b", success := true }]⟩ := by
    have h1 := @PoolStep.claim ["a", "b"]
      (processFile fun f => if f = "a" then .error "boom" else .ok "done") 1
      0 0 [] [] Nat.zero_lt_one (by decide)
    have h2 := @PoolStep.claim ["a", "b"]
      (processFile fun f => if f = "a" then .error "boom" else .ok "done") 1
      0 1 [0] [{ file := "a", success := false }] Nat.zero_lt_one (by decide)
    have hpf1 : (processFile fun f => if f = "a" then .error "boom" else .ok "done")
        ((["a", "b"] : List String).getD 0 "") = { file := "a", success := false } := rfl
    have hpf2 : (processFile fun f => if f = "a" then .error "boom" else .ok "done")
        ((["a", "b"] : List String).getD 1 "") = { file := "b", success := true } := rfl
    refine PoolReach.step (s := ⟨1, [0], [{ file := "a", success := false }]⟩) ?_ ?_
    · refine PoolReach.step (s := ⟨0, [], []⟩) PoolReach.init ?_
      simpa [hpf1] using h1
    · simpa [hpf2] using h2
  have hmax : ∀ s', ¬ PoolStep ["a", "b"]
      (processFile fun f => if f = "a" then .error "boom" else .ok "done") 1
      ⟨2, [0, 1], [{ file := "a", success := false }, { file := "b", success := true }]⟩ s' := by
    intro s' hstep
    rcases hstep with ⟨w, i, c, r, hw, hi⟩
    simp at hi
  have h := runConcurrent_each_file_once ["a", "b"]
    (fun f => if f = "a" then .error "boom" else .ok "done") 1 (le_refl 1) _ hreach hmax
  exact ⟨h.1, h.2.2.1⟩

/-! ## Lemmas for the CLI percentage model -/

lemma valOfDigits_append (l : List Nat) (d : Nat) :
    valOfDigits (l ++ [d]) = 10 * valOfDigits l + d := by
  simp [valOfDigits, List.foldl_append]

lemma natDigitsF_spec : ∀ fuel n, n < fuel →
    (natDigitsF fuel n ≠ [] ∧ (∀ d ∈ natDigitsF fuel n, d < 10) ∧
      valOfDigits (natDigitsF fuel n) = n) := by
  intro fuel
  induction fuel with
  | zero => intro n h; omega
  | succ fuel ih =>
    intro n h
    by_cases h10 : n < 10
    · refine ⟨by simp [natDigitsF, h10], ?_, by simp [natDigitsF, h10, valOfDigits]⟩
      intro d hd
      simp [natDigitsF, h10] at hd
      omega
    · have hdiv : n / 10 < fuel := by
        have h1 : n / 10 < n := Nat.div_lt_self (by omega) (by omega)
        omega
      obtain ⟨hne, hlt, hval⟩ := ih (n / 10) hdiv
      simp only [natDigitsF, if_neg h10]
      refine ⟨by simp, ?_, ?_⟩
      · intro d hd
        rcases List.mem_append.mp hd with hd | hd
        · exact hlt d hd
        · simp at hd; omega
      · rw [valOfDigits_append, hval]
        exact Nat.div_add_mod n 10

lemma natDigits_spec (n : Nat) :
    natDigits n ≠ [] ∧ (∀ d ∈ natDigits n, d < 10) ∧ valOfDigits (natDigits n) = n :=
  natDigitsF_spec (n + 1) n (by omega)

lemma digit_char_facts : ∀ d, d < 10 →
    (isDigitChar (digitChar d) = true ∧ charDigitVal (digitChar d) = d ∧
      digitChar d ≠ '-' ∧ digitChar d ≠ '.') := by decide

lemma takeWhile_append_stop (p : Char → Bool) (A : List Char) (x : Char) (B : List Char)
    (hA : ∀ a ∈ A, p a = true) (hx : p x = false) :
    (A ++ x :: B).takeWhile p = A := by
  induction A with
  | nil => simp [List.takeWhile_cons, hx]
  | cons a as ih =>
    have ha : p a = true := hA a (by simp)
    simp [List.takeWhile_cons, ha, ih (fun b hb => hA b (by simp [hb]))]

lemma dropWhile_append_stop (p : Char → Bool) (A : List Char) (x : Char) (B : List Char)
    (hA : ∀ a ∈ A, p a = true) (hx : p x = false) :
    (A ++ x :: B).dropWhile p = x :: B := by
  induction A with
  | nil => simp [List.dropWhile_cons, hx]
  | cons a as ih =>
    have ha : p a = true := hA a (by simp)
    simp [List.dropWhile_cons, ha, ih (fun b hb => hA b (by simp [hb]))]

lemma valOfCharDigits_map_digitChar (l : List Nat) (h : ∀ d ∈ l, d < 10) :
    valOfCharDigits (l.map digitChar) = valOfDigits l := by
  unfold valOfCharDigits
  rw [List.map_map]
  have hmap : l.map (charDigitVal ∘ digitChar) = l := by
    calc l.map (charDigitVal ∘ digitChar)
        = l.map id := List.map_congr_left (fun d hd => (digit_char_facts d (h d hd)).2.1)
      _ = l := List.map_id l
  rw [hmap]

lemma all_isDigitChar_map (l : List Nat) (h : ∀ d ∈ l, d < 10) :
    ∀ c ∈ l.map digitChar, isDigitChar c = true := by
  intro c hc
  rw [List.mem_map] at hc
  obtain ⟨d, hd, rfl⟩ := hc
  exact (digit_char_facts d (h d hd)).1

lemma parseDecChars_format (ipl fpl : List Char)
    (hip : ipl ≠ []) (hipd : ∀ c ∈ ipl, isDigitChar c = true)
    (hfp : fpl ≠ []) (hfpd : ∀ c ∈ fpl, isDigitChar c = true) :
    parseDecChars (ipl ++ '.' :: fpl) =
      some ((valOfCharDigits ipl : ℚ) + (valOfCharDigits fpl : ℚ) / 10 ^ fpl.length) := by
  have hdot : isDigitChar '.' = false := rfl
  unfold parseDecChars
  rw [takeWhile_append_stop _ _ _ _ hipd hdot, dropWhile_append_stop _ _ _ _ hipd hdot]
  rw [if_neg (by simpa [List.isEmpty_iff] using hip)]
  have hE : fpl.isEmpty = false := by simpa [List.isEmpty_iff] using hfp
  have hall : fpl.all isDigitChar = true := List.all_eq_true.mpr hfpd
  simp [hE, hall]

lemma string_data_append (a b : String) : (a ++ b).data = a.data ++ b.data := rfl

lemma toFixed2Str_data (q : ℚ) :
    (toFixed2Str q).data =
      (if q < 0 then ['-'] else []) ++
        ((natDigits (toFixed2Mag q / 100)).map digitChar ++
          '.' :: twoDigitChars (toFixed2Mag q % 100)) := by
  unfold toFixed2Str natToStr
  by_cases hq : q < 0 <;>
    simp [hq, string_data_append, show ("-" : String).data = ['-'] from rfl,
      show ("." : String).data = ['.'] from rfl, show ("" : String).data = [] from rfl]

lemma twoDigitChars_spec : ∀ m, m < 100 →
    (twoDigitChars m ≠ [] ∧ (∀ c ∈ twoDigitChars m, isDigitChar c = true) ∧
      (twoDigitChars m).length = 2 ∧ valOfCharDigits (twoDigitChars m) = m) := by decide

lemma div_mod_q (M : Nat) :
    ((M / 100 : Nat) : ℚ) + ((M % 100 : Nat) : ℚ) / 10 ^ 2 = (M : ℚ) / 100 := by
  have hn : (M / 100) * 100 + M % 100 = M := by omega
  have h2 : ((M / 100 : Nat) : ℚ) * 100 + ((M % 100 : Nat) : ℚ) = (M : ℚ) := by
    exact_mod_cast hn
  field_simp
  linarith [h2]

lemma jsToNumber_data_cons (s : String) (c : Char) (cs : List Char) (h : s.data = c :: cs) :
    jsToNumber s =
      if c = '-' then (parseDecChars cs).map (fun q => -q) else parseDecChars (c :: cs) := by
  unfold jsToNumber
  rw [h]

lemma jsToNumber_toFixed2Str (q : ℚ) :
    jsToNumber (toFixed2Str q) = some (jsFixedVal q) := by
  obtain ⟨hne, hlt, hval⟩ := natDigits_spec (toFixed2Mag q / 100)
  have hmod : toFixed2Mag q % 100 < 100 := Nat.mod_lt _ (by omega)
  obtain ⟨hfne, hfd, hflen, hfval⟩ := twoDigitChars_spec _ hmod
  have hipne : (natDigits (toFixed2Mag q / 100)).map digitChar ≠ [] := by
    simpa using hne
  have hipd := all_isDigitChar_map _ hlt
  have hipv : valOfCharDigits ((natDigits (toFixed2Mag q / 100)).map digitChar) =
      toFixed2Mag q / 100 := by
    rw [valOfCharDigits_map_digitChar _ hlt, hval]
  have hparse := parseDecChars_format _ _ hipne hipd hfne hfd
  rw [hipv, hfval, hflen] at hparse
  by_cases hq : q < 0
  · have hdata : (toFixed2Str q).data =
        '-' :: ((natDigits (toFixed2Mag q / 100)).map digitChar ++
          '.' :: twoDigitChars (toFixed2Mag q % 100)) := by
      rw [toFixed2Str_data, if_pos hq, List.singleton_append]
    rw [jsToNumber_data_cons _ _ _ hdata, if_pos rfl, hparse]
    unfold jsFixedVal
    rw [if_pos hq, div_mod_q]
    simp only [Option.map_some']
    congr 1
    ring
  · obtain ⟨d0, ds, hds⟩ := List.exists_cons_of_ne_nil hne
    have hd0 : d0 < 10 := hlt d0 (by rw [hds]; exact List.mem_cons_self _ _)
    have hdata : (toFixed2Str q).data =
        digitChar d0 :: (ds.map digitChar ++
          '.' :: twoDigitChars (toFixed2Mag q % 100)) := by
      rw [toFixed2Str_data, if_neg hq, List.nil_append, hds]
      rfl
    rw [jsToNumber_data_cons _ _ _ hdata, if_neg (digit_char_facts d0 hd0).2.2.1]
    rw [show digitChar d0 :: (ds.map digitChar ++
        '.' :: twoDigitChars (toFixed2Mag q % 100)) =
        (natDigits (toFixed2Mag q / 100)).map digitChar ++
          '.' :: twoDigitChars (toFixed2Mag q % 100) from by
      rw [hds]
      rfl]
    rw [hparse]
    unfold jsFixedVal
    rw [if_neg hq, div_mod_q]
    congr 1
    ring

lemma jsGtNum_toFixed2 (q : ℚ) :
    jsGtNum (toFixed2Str q) 10 = decide (10 < jsFixedVal q) := by
  unfold jsGtNum
  rw [jsToNumber_toFixed2Str]

/-- C8 (counterexample): at `originalSize = 100000`, `optimizedSize =
89996` with aggressive mode on, the exact percentage reduction
`100 * (originalSize - optimizedSize) / originalSize = 10.004` is greater
than `10`, yet no warning is emitted — `toFixed(2)` first rounds the
percentage to `"10.00"`, and the (numeric) comparison `"10.00" > 10` is
false. -/
theorem aggressive_warning_counterexample :
    aggressiveWarningEmitted true 100000 89996 = false ∧
    10 < ((((100000 : Nat) : ℚ) - ((89996 : Nat) : ℚ)) / ((100000 : Nat) : ℚ)) * 100 := by
  constructor
  · unfold aggressiveWarningEmitted percentReducedStr
    rw [jsGtNum_toFixed2]
    have hpct : ((((100000 : Nat) : ℚ) - ((89996 : Nat) : ℚ)) / ((100000 : Nat) : ℚ)) * 100 =
        2501 / 250 := by norm_num
    rw [hpct]
    have hMag : toFixed2Mag ((2501 : ℚ) / 250) = 1000 := by
      unfold toFixed2Mag
      rw [abs_of_pos (by norm_num : (0 : ℚ) < 2501 / 250)]
      rw [show (2501 : ℚ) / 250 * 100 + 1 / 2 = 10009 / 10 from by norm_num]
      rw [show Int.floor ((10009 : ℚ) / 10) = 1000 from by
        rw [Int.floor_eq_iff]
        norm_num]
      rfl
    have hVal : jsFixedVal ((2501 : ℚ) / 250) = 10 := by
      unfold jsFixedVal
      rw [hMag, if_neg (by norm_num : ¬ ((2501 : ℚ) / 250) < 0)]
      norm_num
    rw [hVal]
    simp
  · norm_num

/-- C8 (amended): for every file, the aggressive-mode verification warning
is emitted iff aggressive mode is enabled and the percentage reduction
*as rounded by `toFixed(2)`* — not the exact value — is numerically greater
than 10; the comparison is numeric (JS coerces the formatted string back to
its number), not lexical. -/
theorem aggressiveWarning_iff (a : Bool) (o s : Nat) (_ho : 0 < o) :
    aggressiveWarningEmitted a o s = true ↔
      (a = true ∧ 10 < jsFixedVal ((((o : ℚ) - (s : ℚ)) / (o : ℚ)) * 100)) := by
  unfold aggressiveWarningEmitted percentReducedStr
  rw [jsGtNum_toFixed2]
  simp

/-- C8 witness: 20% reduction with aggressive mode on does warn. -/
theorem aggressiveWarning_iff_witness :
    0 < 1000 ∧ (aggressiveWarningEmitted true 1000 800 = true ↔
      (true = true ∧
        10 < jsFixedVal ((((1000 : Nat) : ℚ) - ((800 : Nat) : ℚ)) / ((1000 : Nat) : ℚ) * 100))) :=
  ⟨by decide, aggressiveWarning_iff true 1000 800 (by decide)⟩

end SvgPowerOpt
